import Mathlib

/-!
Verification development for the TorchForge observability metrics core
(`src/forge/observability/metrics.py`).

Shallow embedding conventions:
* Python floats are modelled as rationals (`ℚ`).  The special float values
  `float("inf")` / `float("-inf")` used as initialisers of the `MinAccumulator`
  / `MaxAccumulator` are modelled with `WithTop ℚ` / `WithBot ℚ`.
* The expression `x ** 0.5` on the std path is modelled symbolically by the
  value constructor `MValue.sqrtOf x`: float square root is a deterministic
  function of its argument, so equality of radicands is equality of results.
* Python exceptions become `Except PyError`; `TypeError` and `ValueError` are
  the two constructors of `PyError`.
* Python dicts that are used as ordered key→value maps (accumulators of the
  collector, state maps) are modelled as association lists in insertion
  order; lookup returns the first binding.
* Logging side effects (backend calls, warnings) are modelled as a list of
  `Event`s returned next to the new state.  Backend objects are identified by
  their configured name; their internal I/O is outside this model.
-/

set_option linter.unusedVariables false

namespace Forge

/-- A sample record (a Python dict of scalar fields, e.g. `{"reward": 0.5}`),
as consumed by `TopBottomKFilter.filter_append` via `sample.get(key, 0.0)`. -/
abbrev Sample := List (String × ℚ)

/-- The six reduction kinds of `class Reduce(Enum)`. -/
inductive Reduce
  | MEAN | SUM | MAX | MIN | STD | SAMPLE
deriving DecidableEq, Repr

/-- Python runtime values flowing through the metrics pipeline: finite floats,
the two infinities, a symbolic float square root (see file header), a sample
dict, a Python list of sample dicts (the shape produced by the SAMPLE merge),
and the literal one-element list `[value]` built on the streaming push path. -/
inductive MValue
  | num (q : ℚ)
  | negInf
  | posInf
  | sqrtOf (q : ℚ)
  | dict (s : Sample)
  | list (l : List Sample)
  | list1 (v : MValue)
deriving DecidableEq, Repr

/-- Python exceptions raised by this module. -/
inductive PyError
  | typeError (msg : String)
  | valueError (msg : String)
deriving DecidableEq, Repr

/-- `@dataclass class Metric`.  The wall-clock default timestamp of
`__post_init__` is outside the model; `none` stands for the auto-filled
timestamp. -/
structure Metric where
  key : String
  value : MValue
  reduction : Reduce
  timestamp : Option ℚ
deriving DecidableEq, Repr

/-- Serializable accumulator state (`get_state()` dicts).  Each constructor
carries the kind-specific fields next to the `reduction_type` tag. -/
inductive MetricState
  | mean (sum : ℚ) (count : ℕ)
  | sum (total : ℚ)
  | max (max_val : WithBot ℚ)
  | min (min_val : WithTop ℚ)
  | std (sum : ℚ) (sum_sq : ℚ) (count : ℕ)
  | sample (samples : List Sample)
deriving DecidableEq, Repr

/-- The `reduction_type` entry of a state dict. -/
def MetricState.reduction_type : MetricState → Reduce
  | .mean _ _ => .MEAN
  | .sum _ => .SUM
  | .max _ => .MAX
  | .min _ => .MIN
  | .std _ _ _ => .STD
  | .sample _ => .SAMPLE

----------------------------------------------------------------
-- Python heapq (module `heapq`), on entries (value, tiebreak, sample)
----------------------------------------------------------------

/-- Heap entries `(val, idx, sample)` pushed by `TopBottomKFilter`. -/
abbrev Entry := ℚ × ℕ × Sample

/-- Default entry used for (never exercised) out-of-range list reads. -/
def dEntry : Entry := (0, 0, [])

/-- Python tuple comparison on heap entries.  The tie-break index is unique,
so comparison never reaches the sample component. -/
def entryLt (a b : Entry) : Bool :=
  decide (a.1 < b.1) || (decide (a.1 = b.1) && decide (a.2.1 < b.2.1))

/-- `heapq._siftdown(heap, startpos, pos)` with `newitem = heap[pos]` made
explicit.  The loop walks from `pos` toward `startpos` halving the index, so
`pos + 1` units of fuel always suffice; the fuel-0 branch is unreachable at
the call sites below. -/
def siftdownFuel : ℕ → List Entry → ℕ → ℕ → Entry → List Entry
  | 0, heap, _, pos, newitem => heap.set pos newitem
  | fuel + 1, heap, startpos, pos, newitem =>
    if startpos < pos then
      let parentpos := (pos - 1) / 2
      let parent := heap.getD parentpos dEntry
      if entryLt newitem parent then
        siftdownFuel fuel (heap.set pos parent) startpos parentpos newitem
      else
        heap.set pos newitem
    else
      heap.set pos newitem

/-- `heapq._siftdown(heap, startpos, pos)` (with `newitem = heap[pos]`). -/
def siftdown (heap : List Entry) (startpos pos : ℕ) (newitem : Entry) : List Entry :=
  siftdownFuel (pos + 1) heap startpos pos newitem

/-- `heapq._siftup(heap, pos)` body: bubble the smaller child up while a child
exists, then place `newitem` and sift it down.  The child index strictly
increases and stays below `heap.length`, so `heap.length` units of fuel always
suffice; the fuel-0 branch is unreachable at the call sites below. -/
def siftupFuel : ℕ → List Entry → ℕ → ℕ → Entry → List Entry
  | 0, heap, startpos, pos, newitem => siftdown (heap.set pos newitem) startpos pos newitem
  | fuel + 1, heap, startpos, pos, newitem =>
    let endpos := heap.length
    let childpos := 2 * pos + 1
    if childpos < endpos then
      let rightpos := childpos + 1
      let cp :=
        if rightpos < endpos &&
            !(entryLt (heap.getD childpos dEntry) (heap.getD rightpos dEntry)) then
          rightpos
        else
          childpos
      siftupFuel fuel (heap.set pos (heap.getD cp dEntry)) startpos cp newitem
    else
      siftdown (heap.set pos newitem) startpos pos newitem

/-- `heapq._siftup(heap, pos)`: `startpos = pos`, `newitem = heap[pos]`. -/
def siftup (heap : List Entry) (pos : ℕ) : List Entry :=
  siftupFuel heap.length heap pos pos (heap.getD pos dEntry)

/-- `heapq.heappush(heap, item)`: append, then sift the new item down. -/
def heappush (heap : List Entry) (item : Entry) : List Entry :=
  siftdown (heap ++ [item]) 0 heap.length item

/-- `heapq.heappushpop(heap, item)` (the returned popped item is unused by
`TopBottomKFilter`, so only the heap is modelled): if the heap is non-empty
and its root is smaller than `item`, replace the root and sift up. -/
def heappushpop (heap : List Entry) (item : Entry) : List Entry :=
  match heap with
  | [] => heap
  | h0 :: _ =>
    if entryLt h0 item then
      siftupFuel heap.length (heap.set 0 item) 0 0 item
    else
      heap

----------------------------------------------------------------
-- class TopBottomKFilter
----------------------------------------------------------------

/-- `class TopBottomKFilter`: two bounded heaps plus a tie-break counter
(`itertools.count()` modelled as the next natural number to emit). -/
structure TopBottomKFilter where
  top_k : Int
  bottom_k : Int
  key : String
  top_heap : List Entry
  bottom_heap : List Entry
  counter : ℕ
deriving DecidableEq, Repr

namespace TopBottomKFilter

/-- `TopBottomKFilter.__init__` (Python defaults: `top_k=1, bottom_k=1,
key="reward"`, passed explicitly at the single construction site). -/
def new (top_k bottom_k : Int) (key : String) : TopBottomKFilter :=
  { top_k := top_k, bottom_k := bottom_k, key := key
    top_heap := [], bottom_heap := [], counter := 0 }

/-- `val = sample.get(self.key, 0.0)` inside `filter_append`. -/
def rank_value (f : TopBottomKFilter) (sample : Sample) : ℚ :=
  (sample.lookup f.key).getD 0

/-- `TopBottomKFilter.filter_append`.  Returns the new filter state and the
(always-`false`) boolean telling the accumulator whether to store the sample
in its own list. -/
def filter_append (f : TopBottomKFilter) (sample : Sample) : TopBottomKFilter × Bool :=
  let val := f.rank_value sample
  let idx := f.counter
  let f := { f with counter := f.counter + 1 }
  -- If top_k or bottom_k <= 0, that side of the filtering keeps nothing.
  let f :=
    if 0 < f.top_k then
      if (f.top_heap.length : Int) < f.top_k then
        { f with top_heap := heappush f.top_heap (val, idx, sample) }
      else
        { f with top_heap := heappushpop f.top_heap (val, idx, sample) }
    else f
  let f :=
    if 0 < f.bottom_k then
      if (f.bottom_heap.length : Int) < f.bottom_k then
        { f with bottom_heap := heappush f.bottom_heap (-val, idx, sample) }
      else
        { f with bottom_heap := heappushpop f.bottom_heap (-val, idx, sample) }
    else f
  (f, false)

/-- `TopBottomKFilter.filter_flush` (the `samples` argument is ignored by the
source as well). -/
def filter_flush (f : TopBottomKFilter) (samples : List Sample) : List Sample :=
  let tops := f.top_heap.map (fun e => e.2.2)
  let bottoms := f.bottom_heap.map (fun e => e.2.2)
  bottoms ++ tops

/-- `TopBottomKFilter.reset`. -/
def reset (f : TopBottomKFilter) : TopBottomKFilter :=
  { f with top_heap := [], bottom_heap := [], counter := 0 }

end TopBottomKFilter

----------------------------------------------------------------
-- Accumulators
----------------------------------------------------------------

/-- `class MeanAccumulator`. -/
structure MeanAccumulator where
  sum : ℚ
  count : ℕ
deriving DecidableEq, Repr

namespace MeanAccumulator

def init : MeanAccumulator := { sum := 0, count := 0 }

def append (a : MeanAccumulator) (v : ℚ) : MeanAccumulator :=
  { sum := a.sum + v, count := a.count + 1 }

def get_value (a : MeanAccumulator) : ℚ :=
  if 0 < a.count then a.sum / a.count else 0

def get_state (a : MeanAccumulator) : MetricState :=
  .mean a.sum a.count

/-- Projection of the `sum`/`count` fields read by the classmethod. -/
def stateFields : MetricState → Option (ℚ × ℕ)
  | .mean s c => some (s, c)
  | _ => none

def get_reduced_value_from_states (states : List MetricState) : ℚ :=
  let fields := states.filterMap stateFields
  let total_sum := (fields.map Prod.fst).sum
  let total_count := (fields.map Prod.snd).sum
  if 0 < total_count then total_sum / total_count else 0

def reset (a : MeanAccumulator) : MeanAccumulator := init

end MeanAccumulator

/-- `class SumAccumulator`. -/
structure SumAccumulator where
  total : ℚ
deriving DecidableEq, Repr

namespace SumAccumulator

def init : SumAccumulator := { total := 0 }

def append (a : SumAccumulator) (v : ℚ) : SumAccumulator :=
  { total := a.total + v }

def get_value (a : SumAccumulator) : ℚ := a.total

def get_state (a : SumAccumulator) : MetricState := .sum a.total

def stateFields : MetricState → Option ℚ
  | .sum t => some t
  | _ => none

def get_reduced_value_from_states (states : List MetricState) : ℚ :=
  (states.filterMap stateFields).sum

def reset (a : SumAccumulator) : SumAccumulator := init

end SumAccumulator

/-- `class MaxAccumulator` (`max_val` initialised to `float("-inf")`,
modelled as `⊥ : WithBot ℚ`). -/
structure MaxAccumulator where
  max_val : WithBot ℚ
deriving DecidableEq, Repr

namespace MaxAccumulator

def init : MaxAccumulator := { max_val := ⊥ }

def append (a : MaxAccumulator) (v : ℚ) : MaxAccumulator :=
  { max_val := max a.max_val (v : WithBot ℚ) }

def get_value (a : MaxAccumulator) : WithBot ℚ := a.max_val

def get_state (a : MaxAccumulator) : MetricState := .max a.max_val

def stateFields : MetricState → Option (WithBot ℚ)
  | .max m => some m
  | _ => none

/-- `max(s["max_val"] for s in states)`; folding from `⊥` agrees with the
Python `max` on every non-empty input (and `states` is non-empty at the call
site). -/
def get_reduced_value_from_states (states : List MetricState) : WithBot ℚ :=
  (states.filterMap stateFields).foldl max ⊥

def reset (a : MaxAccumulator) : MaxAccumulator := init

end MaxAccumulator

/-- `class MinAccumulator` (`min_val` initialised to `float("inf")`,
modelled as `⊤ : WithTop ℚ`). -/
structure MinAccumulator where
  min_val : WithTop ℚ
deriving DecidableEq, Repr

namespace MinAccumulator

def init : MinAccumulator := { min_val := ⊤ }

def append (a : MinAccumulator) (v : ℚ) : MinAccumulator :=
  { min_val := min a.min_val (v : WithTop ℚ) }

def get_value (a : MinAccumulator) : WithTop ℚ := a.min_val

def get_state (a : MinAccumulator) : MetricState := .min a.min_val

def stateFields : MetricState → Option (WithTop ℚ)
  | .min m => some m
  | _ => none

/-- `min(s["min_val"] for s in states)`; folding from `⊤` agrees with the
Python `min` on every non-empty input. -/
def get_reduced_value_from_states (states : List MetricState) : WithTop ℚ :=
  (states.filterMap stateFields).foldl min ⊤

def reset (a : MinAccumulator) : MinAccumulator := init

end MinAccumulator

/-- `class StdAccumulator`. -/
structure StdAccumulator where
  sum : ℚ
  sum_sq : ℚ
  count : ℕ
deriving DecidableEq, Repr

namespace StdAccumulator

def init : StdAccumulator := { sum := 0, sum_sq := 0, count := 0 }

def append (a : StdAccumulator) (v : ℚ) : StdAccumulator :=
  { sum := a.sum + v, sum_sq := a.sum_sq + v * v, count := a.count + 1 }

/-- Population std `max(0.0, sum_sq/count - mean^2) ** 0.5`; `0.0` when
`count <= 1`.  The square root is kept symbolic (`MValue.sqrtOf`). -/
def get_value (a : StdAccumulator) : MValue :=
  if a.count = 0 then .num 0
  else if a.count = 1 then .num 0
  else
    let mean := a.sum / a.count
    let variance := a.sum_sq / a.count - mean * mean
    .sqrtOf (max 0 variance)

def get_state (a : StdAccumulator) : MetricState :=
  .std a.sum a.sum_sq a.count

def stateFields : MetricState → Option (ℚ × ℚ × ℕ)
  | .std s sq c => some (s, sq, c)
  | _ => none

/-- The three summed totals computed by `get_reduced_value_from_states`
(`total_sum`, `total_sum_sq`, `total_count`). -/
def stateTotals (states : List MetricState) : ℚ × ℚ × ℕ :=
  let fields := states.filterMap stateFields
  ((fields.map (fun f => f.1)).sum,
   (fields.map (fun f => f.2.1)).sum,
   (fields.map (fun f => f.2.2)).sum)

def get_reduced_value_from_states (states : List MetricState) : MValue :=
  let t := stateTotals states
  let total_sum := t.1
  let total_sum_sq := t.2.1
  let total_count := t.2.2
  if total_count = 0 then .num 0
  else if total_count = 1 then .num 0
  else
    let mean := total_sum / total_count
    let variance := total_sum_sq / total_count - mean * mean
    .sqrtOf (max 0 variance)

def reset (a : StdAccumulator) : StdAccumulator := init

end StdAccumulator

/-- `class SampleAccumulator`. -/
structure SampleAccumulator where
  samples : List Sample
  filter : TopBottomKFilter
deriving DecidableEq, Repr

namespace SampleAccumulator

/-- `__init__`: empty sample list and `TopBottomKFilter()` with its Python
defaults `top_k=1, bottom_k=1, key="reward"`. -/
def init : SampleAccumulator :=
  { samples := [], filter := TopBottomKFilter.new 1 1 "reward" }

/-- `append` (after the `isinstance(value, dict)` check, which lives in the
dispatching `MetricAccumulator.append` below): keep the sample in
`self.samples` only if `filter_append` returns `True`. -/
def append (a : SampleAccumulator) (s : Sample) : SampleAccumulator :=
  let r := a.filter.filter_append s
  { samples := if r.2 then a.samples ++ [s] else a.samples, filter := r.1 }

def get_value (a : SampleAccumulator) : List Sample :=
  a.filter.filter_flush a.samples

def get_state (a : SampleAccumulator) : MetricState :=
  .sample a.get_value

/-- `s.get("samples", [])` of the classmethod: non-sample states contribute
the default empty list, exactly as in the source. -/
def stateSamples : MetricState → List Sample
  | .sample l => l
  | _ => []

def get_reduced_value_from_states (states : List MetricState) : List Sample :=
  states.flatMap stateSamples

def reset (a : SampleAccumulator) : SampleAccumulator :=
  { samples := [], filter := a.filter.reset }

end SampleAccumulator

----------------------------------------------------------------
-- Accumulator dispatch (abstract class MetricAccumulator)
----------------------------------------------------------------

/-- The closed set of `MetricAccumulator` subclasses. -/
inductive MetricAccumulator
  | mean (a : MeanAccumulator)
  | sum (a : SumAccumulator)
  | max (a : MaxAccumulator)
  | min (a : MinAccumulator)
  | std (a : StdAccumulator)
  | sample (a : SampleAccumulator)
deriving DecidableEq, Repr

/-- `Reduce.accumulator_class` composed with instantiation
(`metric.reduction.accumulator_class(metric.reduction)`): the static
kind→accumulator table applied to produce a fresh accumulator. -/
def Reduce.accumulator_class : Reduce → MetricAccumulator
  | .MEAN => .mean .init
  | .SUM => .sum .init
  | .MAX => .max .init
  | .MIN => .min .init
  | .STD => .std .init
  | .SAMPLE => .sample .init

/-- `MetricAccumulator.append(value)`.  The numeric subclasses coerce with
`float(value.item() if hasattr(value, "item") else value)`: the model accepts
finite numeric values (`MValue.num`) and raises `TypeError` otherwise;
`SampleAccumulator.append` checks `isinstance(value, dict)` and raises
`ValueError` otherwise, as in the source. -/
def MetricAccumulator.append (acc : MetricAccumulator) (v : MValue) :
    Except PyError MetricAccumulator :=
  match acc, v with
  | .mean a, .num q => .ok (.mean (a.append q))
  | .sum a, .num q => .ok (.sum (a.append q))
  | .max a, .num q => .ok (.max (a.append q))
  | .min a, .num q => .ok (.min (a.append q))
  | .std a, .num q => .ok (.std (a.append q))
  | .sample a, .dict s => .ok (.sample (a.append s))
  | .sample _, _ => .error (.valueError "Expected dict")
  | _, _ => .error (.typeError "float() coercion failed")

/-- Convert a `max_val` (`WithBot ℚ`) back to the Python float it models. -/
def mvalueOfBot (x : WithBot ℚ) : MValue :=
  WithBot.recBotCoe MValue.negInf (fun q => MValue.num q) x

/-- Convert a `min_val` (`WithTop ℚ`) back to the Python float it models. -/
def mvalueOfTop (x : WithTop ℚ) : MValue :=
  WithTop.recTopCoe MValue.posInf (fun q => MValue.num q) x

/-- Dispatching `get_value()`. -/
def MetricAccumulator.get_value : MetricAccumulator → MValue
  | .mean a => .num a.get_value
  | .sum a => .num a.get_value
  | .max a => mvalueOfBot a.get_value
  | .min a => mvalueOfTop a.get_value
  | .std a => a.get_value
  | .sample a => .list a.get_value

/-- Dispatching `get_state()`. -/
def MetricAccumulator.get_state : MetricAccumulator → MetricState
  | .mean a => a.get_state
  | .sum a => a.get_state
  | .max a => a.get_state
  | .min a => a.get_state
  | .std a => a.get_state
  | .sample a => a.get_state

/-- Dispatching `reset()`. -/
def MetricAccumulator.reset : MetricAccumulator → MetricAccumulator
  | .mean a => .mean a.reset
  | .sum a => .sum a.reset
  | .max a => .max a.reset
  | .min a => .min a.reset
  | .std a => .std a.reset
  | .sample a => .sample a.reset

/-- `Reduce(rt).accumulator_class.get_reduced_value_from_states(states)`:
the static per-kind merge, wrapped into the runtime value domain. -/
def Reduce.merge_states : Reduce → List MetricState → MValue
  | .MEAN, states => .num (MeanAccumulator.get_reduced_value_from_states states)
  | .SUM, states => .num (SumAccumulator.get_reduced_value_from_states states)
  | .MAX, states => mvalueOfBot (MaxAccumulator.get_reduced_value_from_states states)
  | .MIN, states => mvalueOfTop (MinAccumulator.get_reduced_value_from_states states)
  | .STD, states => StdAccumulator.get_reduced_value_from_states states
  | .SAMPLE, states => .list (SampleAccumulator.get_reduced_value_from_states states)

----------------------------------------------------------------
-- reduce_metrics_states
----------------------------------------------------------------

/-- A per-process state map `{metric_key: accumulator_state}` (insertion
ordered). -/
abbrev StateMap := List (String × MetricState)

/-- The per-key body of the loop in `reduce_metrics_states`: gather the states
present for `key`, verify a single `reduction_type`, merge.  `none` models the
`continue` for a key with no states. -/
def reduceKey (states : List StateMap) (key : String) : Except PyError (Option Metric) :=
  let metric_states := states.filterMap (fun st => st.lookup key)
  match metric_states with
  | [] => .ok none
  | s0 :: _ =>
    let first_reduction_type := s0.reduction_type
    if metric_states.all (fun s => decide (s.reduction_type = first_reduction_type)) then
      .ok (some { key := key
                  value := first_reduction_type.merge_states metric_states
                  reduction := first_reduction_type
                  timestamp := none })
    else
      .error (.valueError ("Mismatched reduction types for key " ++ key))

/-- The key loop of `reduce_metrics_states`: build the `reduced_metrics` list
in key order, aborting with the first raised error. -/
def reduceKeys (states : List StateMap) : List String → Except PyError (List Metric)
  | [] => .ok []
  | k :: ks =>
    match reduceKey states k with
    | .error e => .error e
    | .ok m? =>
      match reduceKeys states ks with
      | .error e => .error e
      | .ok rest =>
        match m? with
        | some m => .ok (m :: rest)
        | none => .ok rest

/-- `reduce_metrics_states(states)`.  Python iterates `all_keys` as a `set`
(unspecified order); the model iterates the distinct keys in a fixed
deduplicated order. -/
def reduce_metrics_states (states : List StateMap) : Except PyError (List Metric) :=
  if states.isEmpty then .ok []
  else
    let all_keys := (states.flatMap (fun st => st.map Prod.fst)).dedup
    reduceKeys states all_keys

----------------------------------------------------------------
-- Collector
----------------------------------------------------------------

/-- `class LoggingMode(Enum)`. -/
inductive LoggingMode
  | GLOBAL_REDUCE
  | PER_RANK_REDUCE
  | PER_RANK_NO_REDUCE
deriving DecidableEq, Repr

/-- Observable side effects of collector operations.  Backends are identified
by their configured name; `warn` models the (rate-limited, `log_once`)
warning, `logSamplesTask` the fire-and-forget `asyncio.create_task(
backend.log_samples(...))` on the streaming path, `finish` the shutdown call. -/
inductive Event
  | warn (msg : String)
  | logStream (backend : String) (metric : Metric) (global_step : Int)
  | logSamplesTask (backend : String) (samples : List (String × MValue)) (global_step : Int)
  | logBatch (backend : String) (metrics : List Metric) (global_step : Int)
  | logSamples (backend : String) (samples : List (String × MValue)) (global_step : Int)
  | finish (backend : String)
deriving DecidableEq, Repr

/-- The dynamic argument of `MetricCollector.push`: either a `Metric` or some
other Python object (carried as its repr string). -/
inductive PushInput
  | metric (m : Metric)
  | nonMetric (objRepr : String)
deriving DecidableEq, Repr

/-- `class MetricCollector` state (the per-rank registry and rank identity of
`__new__` are owned by the actor runtime and outside this model). -/
structure Collector where
  accumulators : List (String × MetricAccumulator)
  per_rank_reduce_backends : List String
  per_rank_no_reduce_backends : List String
  global_step : Int
  _is_initialized : Bool
deriving DecidableEq, Repr

namespace Collector

/-- `MetricCollector.__init__` on a fresh instance. -/
def new : Collector :=
  { accumulators := []
    per_rank_reduce_backends := []
    per_rank_no_reduce_backends := []
    global_step := 0
    _is_initialized := false }

/-- `MetricCollector.init_backends(metadata, config, global_step, ...)`:
idempotent; buckets each configured backend by logging mode, skipping
`GLOBAL_REDUCE` (instantiated only by the global actor).  Backend `init`
I/O and primary metadata are outside the model. -/
def init_backends (c : Collector) (config : List (String × LoggingMode))
    (global_step : Int) : Collector :=
  if c._is_initialized then c
  else
    { c with
      global_step := global_step
      per_rank_reduce_backends :=
        config.filterMap (fun p =>
          if p.2 = LoggingMode.PER_RANK_REDUCE then some p.1 else none)
      per_rank_no_reduce_backends :=
        config.filterMap (fun p =>
          if p.2 = LoggingMode.PER_RANK_NO_REDUCE then some p.1 else none)
      _is_initialized := true }

/-- Warning text of `push` before `init_backends` (via `log_once`). -/
def push_warning : String :=
  "Skipping metric collection. Metric logging backends were not initialized."

/-- Warning text of `flush` before `init_backends` (via `log_once`). -/
def flush_warning : String :=
  "Cannot flush collected metrics. MetricCollector.flush() called before init_backends()."

/-- Replace the binding of `k` (the Python `self.accumulators[key].append`
mutation). -/
def setAcc (l : List (String × MetricAccumulator)) (k : String)
    (v : MetricAccumulator) : List (String × MetricAccumulator) :=
  match l with
  | [] => [(k, v)]
  | (k', v') :: rest => if k' = k then (k, v) :: rest else (k', v') :: setAcc rest k v

/-- `MetricCollector.push(metric)`. -/
def push (c : Collector) (arg : PushInput) : Except PyError (Collector × List Event) :=
  if c._is_initialized = false then
    .ok (c, [Event.warn push_warning])
  else
    match arg with
    | .nonMetric r => .error (.typeError ("Expected Metric object, got " ++ r))
    | .metric metric =>
      -- PER_RANK_NO_REDUCE backends: stream immediately
      let streamEvents := c.per_rank_no_reduce_backends.map (fun b =>
        if metric.reduction = Reduce.SAMPLE then
          Event.logSamplesTask b [(metric.key, MValue.list1 metric.value)] c.global_step
        else
          Event.logStream b metric c.global_step)
      -- always accumulate for reduction and state return
      let key := metric.key
      match c.accumulators.lookup key with
      | some acc => do
        let acc' ← acc.append metric.value
        .ok ({ c with accumulators := setAcc c.accumulators key acc' }, streamEvents)
      | none => do
        let acc' ← (metric.reduction.accumulator_class).append metric.value
        .ok ({ c with accumulators := c.accumulators ++ [(key, acc')] }, streamEvents)

/-- `MetricCollector.flush(global_step, return_state)`. -/
def flush (c : Collector) (global_step : Int) (return_state : Bool) :
    Except PyError (Collector × List Event × StateMap) :=
  if c._is_initialized = false then
    .ok (c, [Event.warn flush_warning], [])
  else if c.accumulators.isEmpty then
    -- `logger.debug`: no metrics to flush; nothing changes.
    .ok (c, [], [])
  else do
    -- snapshot states and reset immediately
    let states : StateMap := c.accumulators.map (fun p => (p.1, p.2.get_state))
    let accumulators' := c.accumulators.map (fun p => (p.1, p.2.reset))
    -- log to PER_RANK_REDUCE backends only (NO_REDUCE already logged in push)
    let events ←
      if c.per_rank_reduce_backends.isEmpty then pure ([] : List Event)
      else do
        let reduced_metrics ← reduce_metrics_states [states]
        let scalar_metrics := reduced_metrics.filter
          (fun m => decide (m.reduction ≠ Reduce.SAMPLE))
        let sample_metrics := reduced_metrics.filterMap (fun m =>
          if m.reduction = Reduce.SAMPLE then some (m.key, m.value) else none)
        pure (c.per_rank_reduce_backends.flatMap (fun b =>
          (if scalar_metrics.isEmpty then [] else [Event.logBatch b scalar_metrics global_step]) ++
          (if sample_metrics.isEmpty then [] else [Event.logSamples b sample_metrics global_step])))
    .ok ({ c with accumulators := accumulators', global_step := global_step + 1 },
         events,
         if return_state then states else [])

/-- `MetricCollector.shutdown()`. -/
def shutdown (c : Collector) : List Event :=
  if c._is_initialized = false then []
  else (c.per_rank_reduce_backends ++ c.per_rank_no_reduce_backends).map Event.finish

end Collector

----------------------------------------------------------------
-- Test-harness constructions (sequences of operations)
----------------------------------------------------------------

/-- A filter after a sequence of `filter_append` calls. -/
def appendAllF (f : TopBottomKFilter) (ss : List Sample) : TopBottomKFilter :=
  ss.foldl (fun f s => (f.filter_append s).1) f

/-- A sample accumulator after a sequence of `append` calls. -/
def appendAllS (a : SampleAccumulator) (ss : List Sample) : SampleAccumulator :=
  ss.foldl SampleAccumulator.append a

/-- A mean accumulator that accumulated `vs`. -/
def accumulateMean (vs : List ℚ) : MeanAccumulator :=
  vs.foldl MeanAccumulator.append MeanAccumulator.init

/-- A sum accumulator that accumulated `vs`. -/
def accumulateSum (vs : List ℚ) : SumAccumulator :=
  vs.foldl SumAccumulator.append SumAccumulator.init

/-- A max accumulator that accumulated `vs`. -/
def accumulateMax (vs : List ℚ) : MaxAccumulator :=
  vs.foldl MaxAccumulator.append MaxAccumulator.init

/-- A min accumulator that accumulated `vs`. -/
def accumulateMin (vs : List ℚ) : MinAccumulator :=
  vs.foldl MinAccumulator.append MinAccumulator.init

/-- A std accumulator that accumulated `vs`. -/
def accumulateStd (vs : List ℚ) : StdAccumulator :=
  vs.foldl StdAccumulator.append StdAccumulator.init

----------------------------------------------------------------
-- Helper lemmas: heap operations preserve/shift lengths
----------------------------------------------------------------

lemma siftdownFuel_length (fuel : ℕ) :
    ∀ (heap : List Entry) (sp pos : ℕ) (it : Entry),
      (siftdownFuel fuel heap sp pos it).length = heap.length := by
  induction fuel with
  | zero => intro heap sp pos it; simp [siftdownFuel]
  | succ n ih =>
    intro heap sp pos it
    simp only [siftdownFuel]
    split
    · split
      · rw [ih]; simp
      · simp
    · simp

lemma siftdown_length (heap : List Entry) (sp pos : ℕ) (it : Entry) :
    (siftdown heap sp pos it).length = heap.length := by
  simp [siftdown, siftdownFuel_length]

lemma siftupFuel_length (fuel : ℕ) :
    ∀ (heap : List Entry) (sp pos : ℕ) (it : Entry),
      (siftupFuel fuel heap sp pos it).length = heap.length := by
  induction fuel with
  | zero => intro heap sp pos it; simp [siftupFuel, siftdown_length]
  | succ n ih =>
    intro heap sp pos it
    simp only [siftupFuel]
    split
    · rw [ih]; simp
    · rw [siftdown_length]; simp

lemma heappush_length (heap : List Entry) (e : Entry) :
    (heappush heap e).length = heap.length + 1 := by
  simp [heappush, siftdown_length]

lemma heappushpop_length (heap : List Entry) (e : Entry) :
    (heappushpop heap e).length = heap.length := by
  cases heap with
  | nil => rfl
  | cons h0 rest =>
    simp only [heappushpop]
    split
    · rw [siftupFuel_length]; simp
    · rfl

----------------------------------------------------------------
-- Helper lemmas: filter_append invariants
----------------------------------------------------------------

lemma filter_append_config (f : TopBottomKFilter) (s : Sample) :
    ((f.filter_append s).1).top_k = f.top_k ∧
    ((f.filter_append s).1).bottom_k = f.bottom_k ∧
    ((f.filter_append s).1).key = f.key := by
  simp only [TopBottomKFilter.filter_append]
  split_ifs <;> simp

lemma filter_append_snd (f : TopBottomKFilter) (s : Sample) :
    (f.filter_append s).2 = false := by
  simp [TopBottomKFilter.filter_append]

lemma filter_append_top_length (f : TopBottomKFilter) (s : Sample)
    (hb : f.top_heap.length ≤ f.top_k.toNat) :
    ((f.filter_append s).1).top_heap.length ≤ f.top_k.toNat := by
  simp only [TopBottomKFilter.filter_append]
  split_ifs with h1 h2 h3 h4 <;>
    simp_all [heappush_length, heappushpop_length] <;> omega

lemma filter_append_bottom_length (f : TopBottomKFilter) (s : Sample)
    (hb : f.bottom_heap.length ≤ f.bottom_k.toNat) :
    ((f.filter_append s).1).bottom_heap.length ≤ f.bottom_k.toNat := by
  simp only [TopBottomKFilter.filter_append]
  split_ifs with h1 h2 h3 h4 <;>
    simp_all [heappush_length, heappushpop_length] <;> omega

lemma appendAllF_inv (ss : List Sample) :
    ∀ f : TopBottomKFilter,
      f.top_heap.length ≤ f.top_k.toNat →
      f.bottom_heap.length ≤ f.bottom_k.toNat →
      (appendAllF f ss).top_k = f.top_k ∧
      (appendAllF f ss).bottom_k = f.bottom_k ∧
      (appendAllF f ss).key = f.key ∧
      (appendAllF f ss).top_heap.length ≤ f.top_k.toNat ∧
      (appendAllF f ss).bottom_heap.length ≤ f.bottom_k.toNat := by
  induction ss with
  | nil => intro f h1 h2; simp [appendAllF]; exact ⟨h1, h2⟩
  | cons s ss ih =>
    intro f h1 h2
    have hcfg := filter_append_config f s
    have htop := filter_append_top_length f s h1
    have hbot := filter_append_bottom_length f s h2
    have hrec := ih ((f.filter_append s).1)
      (by rw [hcfg.1]; exact htop) (by rw [hcfg.2.1]; exact hbot)
    have hfold : appendAllF f (s :: ss) = appendAllF ((f.filter_append s).1) ss := by
      simp [appendAllF]
    rw [hfold]
    refine ⟨?_, ?_, ?_, ?_, ?_⟩
    · rw [hrec.1, hcfg.1]
    · rw [hrec.2.1, hcfg.2.1]
    · rw [hrec.2.2.1, hcfg.2.2]
    · rw [hcfg.1] at hrec; exact hrec.2.2.2.1
    · rw [hcfg.2.1] at hrec; exact hrec.2.2.2.2

lemma appendAllS_samples (ss : List Sample) :
    ∀ a : SampleAccumulator, (appendAllS a ss).samples = a.samples := by
  induction ss with
  | nil => intro a; simp [appendAllS]
  | cons s ss ih =>
    intro a
    have : appendAllS a (s :: ss) = appendAllS (a.append s) ss := by
      simp [appendAllS]
    rw [this, ih]
    simp [SampleAccumulator.append, filter_append_snd]

lemma appendAllS_filter (ss : List Sample) :
    ∀ a : SampleAccumulator, (appendAllS a ss).filter = appendAllF a.filter ss := by
  induction ss with
  | nil => intro a; simp [appendAllS, appendAllF]
  | cons s ss ih =>
    intro a
    have h1 : appendAllS a (s :: ss) = appendAllS (a.append s) ss := by
      simp [appendAllS]
    have h2 : appendAllF a.filter (s :: ss) = appendAllF ((a.filter.filter_append s).1) ss := by
      simp [appendAllF]
    rw [h1, h2, ih]
    rfl

----------------------------------------------------------------
-- Claims C7 and C10
----------------------------------------------------------------

/-- Claim C7: for every Top/Bottom-K filter configuration and every sequence
of `filter_append` calls, the top heap holds at most `top_k` entries and the
bottom heap at most `bottom_k` entries (`Int.toNat` makes `k ≤ 0` retain zero
entries on that side), and `filter_append` returns `False`, so a sample is
never stored anywhere outside the two heaps (the accumulator's `samples` list
stays empty). -/
theorem claim7_heap_bounds (tk bk : Int) (key : String) (ss : List Sample) (s : Sample) :
    (appendAllF (TopBottomKFilter.new tk bk key) ss).top_heap.length ≤ tk.toNat ∧
    (appendAllF (TopBottomKFilter.new tk bk key) ss).bottom_heap.length ≤ bk.toNat ∧
    ((appendAllF (TopBottomKFilter.new tk bk key) ss).filter_append s).2 = false ∧
    (appendAllS SampleAccumulator.init ss).samples = [] := by
  have h := appendAllF_inv ss (TopBottomKFilter.new tk bk key)
    (by simp [TopBottomKFilter.new]) (by simp [TopBottomKFilter.new])
  refine ⟨?_, ?_, filter_append_snd _ _, ?_⟩
  · simpa [TopBottomKFilter.new] using h.2.2.2.1
  · simpa [TopBottomKFilter.new] using h.2.2.2.2
  · rw [appendAllS_samples]; rfl

/-- Claim C10: every `SampleAccumulator` is constructed with the fixed filter
`TopBottomKFilter(top_k=1, bottom_k=1, key="reward")`; a sample with no
`"reward"` field is ranked `0.0`; and after any sequence of appends both
`get_value()` and the `samples` field of `get_state()` hold at most
`1 + 1 = 2` samples. -/
theorem claim10_sample_accumulator_bound (vs : List Sample) (s : Sample)
    (h : s.lookup "reward" = none) :
    SampleAccumulator.init.filter = TopBottomKFilter.new 1 1 "reward" ∧
    (appendAllS SampleAccumulator.init vs).filter.rank_value s = 0 ∧
    (appendAllS SampleAccumulator.init vs).get_value.length ≤ 2 ∧
    (appendAllS SampleAccumulator.init vs).get_state =
      MetricState.sample ((appendAllS SampleAccumulator.init vs).get_value) := by
  have hf := appendAllS_filter vs SampleAccumulator.init
  have hinv := appendAllF_inv vs (TopBottomKFilter.new 1 1 "reward")
    (by simp [TopBottomKFilter.new]) (by simp [TopBottomKFilter.new])
  have hfi : SampleAccumulator.init.filter = TopBottomKFilter.new 1 1 "reward" := rfl
  refine ⟨rfl, ?_, ?_, rfl⟩
  · rw [hf, hfi]
    unfold TopBottomKFilter.rank_value
    rw [hinv.2.2.1]
    simp [TopBottomKFilter.new, h]
  · show ((appendAllS SampleAccumulator.init vs).filter.filter_flush
      (appendAllS SampleAccumulator.init vs).samples).length ≤ 2
    rw [hf, hfi]
    simp only [TopBottomKFilter.filter_flush, List.length_append, List.length_map]
    have h1 := hinv.2.2.2.1
    have h2 := hinv.2.2.2.2
    have e1 : (TopBottomKFilter.new 1 1 "reward").top_k.toNat = 1 := rfl
    have e2 : (TopBottomKFilter.new 1 1 "reward").bottom_k.toNat = 1 := rfl
    rw [e1] at h1
    rw [e2] at h2
    omega

theorem claim10_witness :
    ([("x", (1 : ℚ))] : Sample).lookup "reward" = none ∧
    ((appendAllS SampleAccumulator.init
        [[("reward", (5 : ℚ))], [("reward", (2 : ℚ))], [("reward", (8 : ℚ))]]).get_value.length ≤ 2) :=
  ⟨by decide,
   (claim10_sample_accumulator_bound
      [[("reward", (5 : ℚ))], [("reward", (2 : ℚ))], [("reward", (8 : ℚ))]]
      [("x", (1 : ℚ))] (by decide)).2.2.1⟩

----------------------------------------------------------------
-- Claims C8 and C9 (uninitialized collector / non-Metric input)
----------------------------------------------------------------

/-- Claim C8: on a collector whose backends were never initialized, `push`
never raises (for any input, Metric or not), changes nothing, and only emits
the (rate-limited) warning; `flush` likewise returns an empty map and changes
nothing.  A fresh collector starts uninitialized with no accumulators. -/
theorem claim8_uninitialized_safe (c : Collector) (arg : PushInput)
    (gs : Int) (rs : Bool) (h : c._is_initialized = false) :
    c.push arg = .ok (c, [Event.warn Collector.push_warning]) ∧
    c.flush gs rs = .ok (c, [Event.warn Collector.flush_warning], []) ∧
    Collector.new._is_initialized = false ∧
    Collector.new.accumulators = [] := by
  refine ⟨?_, ?_, rfl, rfl⟩
  · simp [Collector.push, h]
  · simp [Collector.flush, h]

theorem claim8_witness :
    Collector.new.push (PushInput.nonMetric "oops") =
      .ok (Collector.new, [Event.warn Collector.push_warning]) ∧
    Collector.new.flush 3 true =
      .ok (Collector.new, [Event.warn Collector.flush_warning], []) :=
  ⟨(claim8_uninitialized_safe Collector.new (PushInput.nonMetric "oops") 3 true rfl).1,
   (claim8_uninitialized_safe Collector.new (PushInput.nonMetric "oops") 3 true rfl).2.1⟩

/-- Claim C9 counterexample: a non-Metric input pushed to an *uninitialized*
collector does not raise — the uninitialized early-return (warn and drop)
comes before the `isinstance` check, so "for every input that is not a Metric
object, push raises a fatal type error" is false as stated. -/
theorem claim9_counterexample :
    Collector.new.push (PushInput.nonMetric "not a Metric") =
      .ok (Collector.new, [Event.warn Collector.push_warning]) := rfl

/-- Claim C9 (amended): on an *initialized* collector, every non-Metric input
to `push` raises `TypeError`. -/
theorem claim9_nonmetric_type_error (c : Collector) (r : String)
    (h : c._is_initialized = true) :
    c.push (PushInput.nonMetric r) =
      .error (.typeError ("Expected Metric object, got " ++ r)) := by
  simp [Collector.push, h]

theorem claim9_witness :
    (Collector.new.init_backends [] 0).push (PushInput.nonMetric "42") =
      .error (.typeError ("Expected Metric object, got " ++ "42")) :=
  claim9_nonmetric_type_error (Collector.new.init_backends [] 0) "42" rfl

----------------------------------------------------------------
-- Claim C1 (flush no-op conditions)
----------------------------------------------------------------

/-- Claim C1 counterexample: after a push/flush cycle the accumulator map
still contains an (empty, freshly reset) accumulator, so "no accumulator
holds data"; yet the next flush returns a *non-empty* state map and advances
the step counter — the claimed no-op fails.  The no-op branch tests map
emptiness (`if not self.accumulators`), not data emptiness. -/
theorem claim1_counterexample :
    ∃ (cND c3 : Collector) (evA evB : List Event) (stA stB : StateMap),
      ((Collector.new.init_backends [("console", LoggingMode.PER_RANK_REDUCE)] 0).push
          (PushInput.metric ⟨"loss", MValue.num 1, Reduce.MEAN, none⟩)).bind
        (fun p => p.1.flush 5 true) = .ok (cND, evA, stA) ∧
      cND.accumulators = [("loss", MetricAccumulator.mean ⟨0, 0⟩)] ∧
      cND._is_initialized = true ∧
      cND.global_step = 6 ∧
      cND.flush 7 true = .ok (c3, evB, stB) ∧
      stB ≠ [] ∧
      c3.global_step = 8 := by
  have hpush :
      (Collector.new.init_backends [("console", LoggingMode.PER_RANK_REDUCE)] 0).push
          (PushInput.metric ⟨"loss", MValue.num 1, Reduce.MEAN, none⟩) =
        .ok (⟨[("loss", MetricAccumulator.mean ⟨1, 1⟩)], ["console"], [], 0, true⟩, []) := by
    norm_num [Collector.new, Collector.init_backends, Collector.push,
      Reduce.accumulator_class, MetricAccumulator.append,
      MeanAccumulator.append, MeanAccumulator.init, List.lookup,
      bind, Except.bind, List.filterMap_cons, List.filterMap_nil]
    decide
  have hflushA :
      (⟨[("loss", MetricAccumulator.mean ⟨1, 1⟩)], ["console"], [], 0, true⟩ : Collector).flush
          5 true =
        .ok (⟨[("loss", MetricAccumulator.mean ⟨0, 0⟩)], ["console"], [], 6, true⟩,
             [Event.logBatch "console" [⟨"loss", MValue.num 1, Reduce.MEAN, none⟩] 5],
             [("loss", MetricState.mean 1 1)]) := by
    norm_num [Collector.flush, MetricAccumulator.get_state, MeanAccumulator.get_state,
      MetricAccumulator.reset, MeanAccumulator.reset, MeanAccumulator.init,
      reduce_metrics_states, reduceKeys, reduceKey, List.lookup,
      MetricState.reduction_type, Reduce.merge_states,
      MeanAccumulator.get_reduced_value_from_states, MeanAccumulator.stateFields,
      bind, Except.bind, pure, Except.pure, List.filterMap_cons, List.filterMap_nil,
      List.all_cons, List.all_nil]
    decide
  have hflushB :
      (⟨[("loss", MetricAccumulator.mean ⟨0, 0⟩)], ["console"], [], 6, true⟩ : Collector).flush
          7 true =
        .ok (⟨[("loss", MetricAccumulator.mean ⟨0, 0⟩)], ["console"], [], 8, true⟩,
             [Event.logBatch "console" [⟨"loss", MValue.num 0, Reduce.MEAN, none⟩] 7],
             [("loss", MetricState.mean 0 0)]) := by
    norm_num [Collector.flush, MetricAccumulator.get_state, MeanAccumulator.get_state,
      MetricAccumulator.reset, MeanAccumulator.reset, MeanAccumulator.init,
      reduce_metrics_states, reduceKeys, reduceKey, List.lookup,
      MetricState.reduction_type, Reduce.merge_states,
      MeanAccumulator.get_reduced_value_from_states, MeanAccumulator.stateFields,
      bind, Except.bind, pure, Except.pure, List.filterMap_cons, List.filterMap_nil,
      List.all_cons, List.all_nil]
    decide
  refine ⟨⟨[("loss", .mean ⟨0, 0⟩)], ["console"], [], 6, true⟩,
          ⟨[("loss", .mean ⟨0, 0⟩)], ["console"], [], 8, true⟩,
          [Event.logBatch "console" [⟨"loss", MValue.num 1, Reduce.MEAN, none⟩] 5],
          [Event.logBatch "console" [⟨"loss", MValue.num 0, Reduce.MEAN, none⟩] 7],
          [("loss", MetricState.mean 1 1)],
          [("loss", MetricState.mean 0 0)],
          ?_, rfl, rfl, rfl, hflushB, by decide, rfl⟩
  rw [hpush]
  exact hflushA

/-- Claim C1 (amended): flush is a true no-op — empty state map, collector
(including its step counter) unchanged — when the accumulator *map* is empty,
i.e. when no accumulator object exists (no push since initialization), for
any `global_step` and `return_state`. -/
theorem claim1_flush_no_accumulators_noop (c : Collector) (gs : Int) (rs : Bool)
    (h1 : c._is_initialized = true) (h2 : c.accumulators = []) :
    c.flush gs rs = .ok (c, [], []) := by
  simp [Collector.flush, h1, h2]

----------------------------------------------------------------
-- Claim C2 (mismatched reduction_type raises)
----------------------------------------------------------------

lemma mem_keys_of_lookup {β : Type _} :
    ∀ (l : List (String × β)) (k : String) (v : β),
      l.lookup k = some v → k ∈ l.map Prod.fst := by
  intro l
  induction l with
  | nil => intro k v h; simp [List.lookup] at h
  | cons p l ih =>
    intro k v h
    obtain ⟨k', v'⟩ := p
    by_cases hk : k = k'
    · simp [hk]
    · rw [List.lookup_cons] at h
      have hbeq : (k == k') = false := beq_eq_false_iff_ne.mpr hk
      rw [hbeq] at h
      simp only [List.map_cons, List.mem_cons]
      exact Or.inr (ih k v h)

/-- The only raise in `reduce_metrics_states`'s per-key body is the
mismatched-`reduction_type` `ValueError`. -/
lemma reduceKey_error_shape (states : List StateMap) (k : String) (e : PyError)
    (h : reduceKey states k = .error e) : ∃ m, e = .valueError m := by
  simp only [reduceKey] at h
  split at h
  · exact absurd h (by simp)
  · split at h
    · exact absurd h (by simp)
    · injection h with h'
      exact ⟨_, h'.symm⟩

/-- If the states present for a key disagree on `reduction_type`, processing
that key raises. -/
lemma reduceKey_mismatch (states : List StateMap) (k : String)
    (s1 s2 : MetricState)
    (h1 : s1 ∈ states.filterMap (fun st => st.lookup k))
    (h2 : s2 ∈ states.filterMap (fun st => st.lookup k))
    (hne : s1.reduction_type ≠ s2.reduction_type) :
    ∃ e, reduceKey states k = .error e := by
  cases hms : states.filterMap (fun st => st.lookup k) with
  | nil => rw [hms] at h1; simp at h1
  | cons s0 rest =>
    rw [hms] at h1 h2
    have hall :
        ((s0 :: rest).all fun s => decide (s.reduction_type = s0.reduction_type)) = false := by
      rw [Bool.eq_false_iff]
      intro hall
      rw [List.all_eq_true] at hall
      have e1 := of_decide_eq_true (hall s1 h1)
      have e2 := of_decide_eq_true (hall s2 h2)
      exact hne (e1.trans e2.symm)
    refine ⟨.valueError ("Mismatched reduction types for key " ++ k), ?_⟩
    simp only [reduceKey]
    rw [hms]
    simp [hall]

/-- An erroring key anywhere in the key list makes the whole loop raise a
`ValueError`. -/
lemma reduceKeys_error (states : List StateMap) :
    ∀ (ks : List String) (k : String), k ∈ ks →
      (∃ e, reduceKey states k = .error e) →
      ∃ m, reduceKeys states ks = .error (.valueError m) := by
  intro ks
  induction ks with
  | nil => intro k hk; simp at hk
  | cons k0 ks ih =>
    intro k hk he
    obtain ⟨e, he⟩ := he
    cases h0 : reduceKey states k0 with
    | error e0 =>
      obtain ⟨m, hm⟩ := reduceKey_error_shape states k0 e0 h0
      refine ⟨m, ?_⟩
      simp only [reduceKeys, h0, hm]
    | ok m? =>
      have hk' : k ∈ ks := by
        rcases List.mem_cons.mp hk with rfl | hmem
        · rw [h0] at he; exact absurd he (by simp)
        · exact hmem
      obtain ⟨m, hm⟩ := ih k hk' ⟨e, he⟩
      refine ⟨m, ?_⟩
      simp only [reduceKeys, h0, hm]

/-- Claim C2: whenever two states present for the same key declare different
`reduction_type`s, `reduce_metrics_states` raises a `ValueError`; it never
returns a result for that input. -/
theorem claim2_merge_mismatch_raises (states : List StateMap) (key : String)
    (s1 s2 : MetricState)
    (h1 : s1 ∈ states.filterMap (fun st => st.lookup key))
    (h2 : s2 ∈ states.filterMap (fun st => st.lookup key))
    (hne : s1.reduction_type ≠ s2.reduction_type) :
    ∃ m, reduce_metrics_states states = .error (.valueError m) := by
  obtain ⟨st, hst, hlk⟩ := List.mem_filterMap.mp h1
  have hnonempty : states.isEmpty = false := by
    cases states with
    | nil => simp at hst
    | cons _ _ => rfl
  have hkey : key ∈ (states.flatMap (fun st => st.map Prod.fst)).dedup := by
    rw [List.mem_dedup, List.mem_flatMap]
    exact ⟨st, hst, mem_keys_of_lookup st key s1 hlk⟩
  obtain ⟨m, hm⟩ :=
    reduceKeys_error states _ key hkey (reduceKey_mismatch states key s1 s2 h1 h2 hne)
  refine ⟨m, ?_⟩
  simp only [reduce_metrics_states, hnonempty, Bool.false_eq_true, if_false]
  exact hm

theorem claim2_witness :
    ∃ m, reduce_metrics_states
        [[("loss", MetricState.mean 1 1)], [("loss", MetricState.sum 2)]] =
      .error (.valueError m) :=
  claim2_merge_mismatch_raises _ "loss" (MetricState.mean 1 1) (MetricState.sum 2)
    (by decide) (by decide) (by decide)

----------------------------------------------------------------
-- Claim C3 (merge of a single state is the local value)
----------------------------------------------------------------

lemma mean_merge_one (a : MeanAccumulator) :
    MeanAccumulator.get_reduced_value_from_states [a.get_state] = a.get_value := by
  simp [MeanAccumulator.get_reduced_value_from_states, MeanAccumulator.get_state,
    MeanAccumulator.stateFields, MeanAccumulator.get_value]

lemma sum_merge_one (a : SumAccumulator) :
    SumAccumulator.get_reduced_value_from_states [a.get_state] = a.get_value := by
  simp [SumAccumulator.get_reduced_value_from_states, SumAccumulator.get_state,
    SumAccumulator.stateFields, SumAccumulator.get_value]

lemma max_merge_one (a : MaxAccumulator) :
    MaxAccumulator.get_reduced_value_from_states [a.get_state] = a.get_value := by
  simp [MaxAccumulator.get_reduced_value_from_states, MaxAccumulator.get_state,
    MaxAccumulator.stateFields, MaxAccumulator.get_value, max_bot_left]

lemma min_merge_one (a : MinAccumulator) :
    MinAccumulator.get_reduced_value_from_states [a.get_state] = a.get_value := by
  simp [MinAccumulator.get_reduced_value_from_states, MinAccumulator.get_state,
    MinAccumulator.stateFields, MinAccumulator.get_value, min_top_left]

lemma std_merge_one (a : StdAccumulator) :
    StdAccumulator.get_reduced_value_from_states [a.get_state] = a.get_value := by
  simp [StdAccumulator.get_reduced_value_from_states, StdAccumulator.get_state,
    StdAccumulator.stateFields, StdAccumulator.get_value, StdAccumulator.stateTotals]

lemma sample_merge_one (a : SampleAccumulator) :
    SampleAccumulator.get_reduced_value_from_states [a.get_state] = a.get_value := by
  simp [SampleAccumulator.get_reduced_value_from_states, SampleAccumulator.get_state,
    SampleAccumulator.stateSamples]

/-- Claim C3: for every accumulator kind and every accumulator reachable by a
sequence of appends, the kind's static merge applied to the singleton list of
the accumulator's own state snapshot is exactly its locally reduced value. -/
theorem claim3_merge_of_one_identity :
    (∀ vs : List ℚ,
      MeanAccumulator.get_reduced_value_from_states [(accumulateMean vs).get_state] =
        (accumulateMean vs).get_value) ∧
    (∀ vs : List ℚ,
      SumAccumulator.get_reduced_value_from_states [(accumulateSum vs).get_state] =
        (accumulateSum vs).get_value) ∧
    (∀ vs : List ℚ,
      MaxAccumulator.get_reduced_value_from_states [(accumulateMax vs).get_state] =
        (accumulateMax vs).get_value) ∧
    (∀ vs : List ℚ,
      MinAccumulator.get_reduced_value_from_states [(accumulateMin vs).get_state] =
        (accumulateMin vs).get_value) ∧
    (∀ vs : List ℚ,
      StdAccumulator.get_reduced_value_from_states [(accumulateStd vs).get_state] =
        (accumulateStd vs).get_value) ∧
    (∀ ss : List Sample,
      SampleAccumulator.get_reduced_value_from_states
          [(appendAllS SampleAccumulator.init ss).get_state] =
        (appendAllS SampleAccumulator.init ss).get_value) :=
  ⟨fun vs => mean_merge_one _, fun vs => sum_merge_one _, fun vs => max_merge_one _,
   fun vs => min_merge_one _, fun vs => std_merge_one _, fun ss => sample_merge_one _⟩

----------------------------------------------------------------
-- Claim C4 (merging a partition equals one global accumulation)
----------------------------------------------------------------

lemma foldl_mean (vs : List ℚ) :
    ∀ a : MeanAccumulator,
      (vs.foldl MeanAccumulator.append a).sum = a.sum + vs.sum ∧
      (vs.foldl MeanAccumulator.append a).count = a.count + vs.length := by
  induction vs with
  | nil => intro a; simp
  | cons v vs ih =>
    intro a
    obtain ⟨h1, h2⟩ := ih (a.append v)
    refine ⟨?_, ?_⟩
    · rw [List.foldl_cons, h1]
      simp only [MeanAccumulator.append, List.sum_cons]
      ring
    · rw [List.foldl_cons, h2]
      simp only [MeanAccumulator.append, List.length_cons]
      omega

lemma accumulateMean_spec (vs : List ℚ) :
    (accumulateMean vs).sum = vs.sum ∧ (accumulateMean vs).count = vs.length := by
  simpa [accumulateMean, MeanAccumulator.init] using foldl_mean vs MeanAccumulator.init

lemma foldl_sum (vs : List ℚ) :
    ∀ a : SumAccumulator, (vs.foldl SumAccumulator.append a).total = a.total + vs.sum := by
  induction vs with
  | nil => intro a; simp
  | cons v vs ih =>
    intro a
    rw [List.foldl_cons, ih (a.append v)]
    simp only [SumAccumulator.append, List.sum_cons]
    ring

lemma accumulateSum_spec (vs : List ℚ) : (accumulateSum vs).total = vs.sum := by
  simpa [accumulateSum, SumAccumulator.init] using foldl_sum vs SumAccumulator.init

lemma foldl_std (vs : List ℚ) :
    ∀ a : StdAccumulator,
      (vs.foldl StdAccumulator.append a).sum = a.sum + vs.sum ∧
      (vs.foldl StdAccumulator.append a).sum_sq = a.sum_sq + (vs.map fun v => v * v).sum ∧
      (vs.foldl StdAccumulator.append a).count = a.count + vs.length := by
  induction vs with
  | nil => intro a; simp
  | cons v vs ih =>
    intro a
    obtain ⟨h1, h2, h3⟩ := ih (a.append v)
    refine ⟨?_, ?_, ?_⟩
    · rw [List.foldl_cons, h1]
      simp only [StdAccumulator.append, List.sum_cons]
      ring
    · rw [List.foldl_cons, h2]
      simp only [StdAccumulator.append, List.map_cons, List.sum_cons]
      ring
    · rw [List.foldl_cons, h3]
      simp only [StdAccumulator.append, List.length_cons]
      omega

lemma accumulateStd_spec (vs : List ℚ) :
    (accumulateStd vs).sum = vs.sum ∧
    (accumulateStd vs).sum_sq = (vs.map fun v => v * v).sum ∧
    (accumulateStd vs).count = vs.length := by
  simpa [accumulateStd, StdAccumulator.init] using foldl_std vs StdAccumulator.init

/-- The running-max step `max_val = max(max_val, v)` of `MaxAccumulator`. -/
def maxStep (m : WithBot ℚ) (v : ℚ) : WithBot ℚ := max m (v : WithBot ℚ)

/-- The running-min step `min_val = min(min_val, v)` of `MinAccumulator`. -/
def minStep (m : WithTop ℚ) (v : ℚ) : WithTop ℚ := min m (v : WithTop ℚ)

lemma foldl_max_acc (vs : List ℚ) :
    ∀ a : MaxAccumulator,
      (vs.foldl MaxAccumulator.append a).max_val = vs.foldl maxStep a.max_val := by
  induction vs with
  | nil => intro a; rfl
  | cons v vs ih =>
    intro a
    simp only [List.foldl_cons, ih (a.append v)]
    rfl

lemma accumulateMax_spec (vs : List ℚ) :
    (accumulateMax vs).max_val = vs.foldl maxStep ⊥ := by
  simpa [accumulateMax, MaxAccumulator.init] using foldl_max_acc vs MaxAccumulator.init

lemma foldl_min_acc (vs : List ℚ) :
    ∀ a : MinAccumulator,
      (vs.foldl MinAccumulator.append a).min_val = vs.foldl minStep a.min_val := by
  induction vs with
  | nil => intro a; rfl
  | cons v vs ih =>
    intro a
    simp only [List.foldl_cons, ih (a.append v)]
    rfl

lemma accumulateMin_spec (vs : List ℚ) :
    (accumulateMin vs).min_val = vs.foldl minStep ⊤ := by
  simpa [accumulateMin, MinAccumulator.init] using foldl_min_acc vs MinAccumulator.init

lemma foldl_max_hom (p : List ℚ) :
    ∀ a b : WithBot ℚ, p.foldl maxStep (max a b) = max a (p.foldl maxStep b) := by
  induction p with
  | nil => intro a b; rfl
  | cons v p ih =>
    intro a b
    simp only [List.foldl_cons, maxStep]
    rw [max_assoc]
    exact ih a (max b v)

lemma foldl_min_hom (p : List ℚ) :
    ∀ a b : WithTop ℚ, p.foldl minStep (min a b) = min a (p.foldl minStep b) := by
  induction p with
  | nil => intro a b; rfl
  | cons v p ih =>
    intro a b
    simp only [List.foldl_cons, minStep]
    rw [min_assoc]
    exact ih a (min b v)

lemma foldl_max_parts (parts : List (List ℚ)) :
    ∀ a : WithBot ℚ,
      (parts.map fun vs => vs.foldl maxStep ⊥).foldl max a =
        parts.flatten.foldl maxStep a := by
  induction parts with
  | nil => intro a; rfl
  | cons p parts ih =>
    intro a
    simp only [List.map_cons, List.foldl_cons, List.flatten_cons, List.foldl_append]
    rw [ih, ← foldl_max_hom, max_comm a ⊥, max_bot_left]

lemma foldl_min_parts (parts : List (List ℚ)) :
    ∀ a : WithTop ℚ,
      (parts.map fun vs => vs.foldl minStep ⊤).foldl min a =
        parts.flatten.foldl minStep a := by
  induction parts with
  | nil => intro a; rfl
  | cons p parts ih =>
    intro a
    simp only [List.map_cons, List.foldl_cons, List.flatten_cons, List.foldl_append]
    rw [ih, ← foldl_min_hom, min_comm a ⊤, min_top_left]

/-- `filterMap` of a field projection over states that all have the right
shape is a plain `map`. -/
lemma filterMap_state {α γ : Type _} (l : List α) (g : α → MetricState)
    (f : MetricState → Option γ) (e : α → γ) (h : ∀ a, f (g a) = some (e a)) :
    (l.map g).filterMap f = l.map e := by
  induction l with
  | nil => rfl
  | cons x l ih => simp [h, ih]

/-- Claim C4: merging the per-part state snapshots of MEAN/SUM/MAX/MIN
accumulators equals the local value of one accumulator over the concatenated
list, exactly, in sum/count/max/min arithmetic; for STD the summed
`sum`/`sum_sq`/`count` totals equal the single accumulator's fields (hence,
in exact arithmetic, so do the reduced values). -/
theorem claim4_merge_partition (parts : List (List ℚ)) :
    MeanAccumulator.get_reduced_value_from_states
        (parts.map fun vs => (accumulateMean vs).get_state) =
      (accumulateMean parts.flatten).get_value ∧
    SumAccumulator.get_reduced_value_from_states
        (parts.map fun vs => (accumulateSum vs).get_state) =
      (accumulateSum parts.flatten).get_value ∧
    MaxAccumulator.get_reduced_value_from_states
        (parts.map fun vs => (accumulateMax vs).get_state) =
      (accumulateMax parts.flatten).get_value ∧
    MinAccumulator.get_reduced_value_from_states
        (parts.map fun vs => (accumulateMin vs).get_state) =
      (accumulateMin parts.flatten).get_value ∧
    StdAccumulator.stateTotals (parts.map fun vs => (accumulateStd vs).get_state) =
      ((accumulateStd parts.flatten).sum, (accumulateStd parts.flatten).sum_sq,
       (accumulateStd parts.flatten).count) ∧
    StdAccumulator.get_reduced_value_from_states
        (parts.map fun vs => (accumulateStd vs).get_state) =
      (accumulateStd parts.flatten).get_value := by
  have hmean :
      MeanAccumulator.get_reduced_value_from_states
          (parts.map fun vs => (accumulateMean vs).get_state) =
        (accumulateMean parts.flatten).get_value := by
    have hfm := filterMap_state parts (fun vs => (accumulateMean vs).get_state)
      MeanAccumulator.stateFields (fun vs => (vs.sum, vs.length))
      (fun vs => by
        simp [MeanAccumulator.get_state, MeanAccumulator.stateFields,
          (accumulateMean_spec vs).1, (accumulateMean_spec vs).2])
    unfold MeanAccumulator.get_reduced_value_from_states MeanAccumulator.get_value
    rw [hfm, (accumulateMean_spec parts.flatten).1, (accumulateMean_spec parts.flatten).2]
    simp [List.map_map, Function.comp_def, List.sum_flatten, List.length_flatten]
  have hsum :
      SumAccumulator.get_reduced_value_from_states
          (parts.map fun vs => (accumulateSum vs).get_state) =
        (accumulateSum parts.flatten).get_value := by
    have hfm := filterMap_state parts (fun vs => (accumulateSum vs).get_state)
      SumAccumulator.stateFields (fun vs => vs.sum)
      (fun vs => by
        simp [SumAccumulator.get_state, SumAccumulator.stateFields, accumulateSum_spec vs])
    unfold SumAccumulator.get_reduced_value_from_states SumAccumulator.get_value
    rw [hfm, accumulateSum_spec parts.flatten]
    simp [List.sum_flatten]
  have hmax :
      MaxAccumulator.get_reduced_value_from_states
          (parts.map fun vs => (accumulateMax vs).get_state) =
        (accumulateMax parts.flatten).get_value := by
    have hfm := filterMap_state parts (fun vs => (accumulateMax vs).get_state)
      MaxAccumulator.stateFields (fun vs => vs.foldl maxStep ⊥)
      (fun vs => by
        simp [MaxAccumulator.get_state, MaxAccumulator.stateFields, accumulateMax_spec vs])
    unfold MaxAccumulator.get_reduced_value_from_states MaxAccumulator.get_value
    rw [hfm, accumulateMax_spec parts.flatten, foldl_max_parts]
  have hmin :
      MinAccumulator.get_reduced_value_from_states
          (parts.map fun vs => (accumulateMin vs).get_state) =
        (accumulateMin parts.flatten).get_value := by
    have hfm := filterMap_state parts (fun vs => (accumulateMin vs).get_state)
      MinAccumulator.stateFields (fun vs => vs.foldl minStep ⊤)
      (fun vs => by
        simp [MinAccumulator.get_state, MinAccumulator.stateFields, accumulateMin_spec vs])
    unfold MinAccumulator.get_reduced_value_from_states MinAccumulator.get_value
    rw [hfm, accumulateMin_spec parts.flatten, foldl_min_parts]
  have hstdT :
      StdAccumulator.stateTotals (parts.map fun vs => (accumulateStd vs).get_state) =
        ((accumulateStd parts.flatten).sum, (accumulateStd parts.flatten).sum_sq,
         (accumulateStd parts.flatten).count) := by
    have hfm := filterMap_state parts (fun vs => (accumulateStd vs).get_state)
      StdAccumulator.stateFields (fun vs => (vs.sum, (vs.map fun v => v * v).sum, vs.length))
      (fun vs => by
        simp [StdAccumulator.get_state, StdAccumulator.stateFields,
          (accumulateStd_spec vs).1, (accumulateStd_spec vs).2.1, (accumulateStd_spec vs).2.2])
    unfold StdAccumulator.stateTotals
    rw [hfm, (accumulateStd_spec parts.flatten).1, (accumulateStd_spec parts.flatten).2.1,
      (accumulateStd_spec parts.flatten).2.2]
    simp only [List.map_map, Function.comp_def, Prod.mk.injEq]
    refine ⟨?_, ?_, ?_⟩
    · simp [List.sum_flatten]
    · rw [List.map_flatten, List.sum_flatten, List.map_map]
      simp [Function.comp_def]
    · simp [List.length_flatten]
  have hstdV :
      StdAccumulator.get_reduced_value_from_states
          (parts.map fun vs => (accumulateStd vs).get_state) =
        (accumulateStd parts.flatten).get_value := by
    unfold StdAccumulator.get_reduced_value_from_states StdAccumulator.get_value
    rw [hstdT]
  exact ⟨hmean, hsum, hmax, hmin, hstdT, hstdV⟩

----------------------------------------------------------------
-- Claim C6 (Top/Bottom-K scenario, order independence)
----------------------------------------------------------------

/-- A sample `{"reward": v}`. -/
def mkRewardSample (v : ℚ) : Sample := [("reward", v)]

/-- A `TopBottomKFilter(top_k=2, bottom_k=1, key="reward")` fed the given
values as reward samples. -/
def runTopBottom (vals : List ℚ) : TopBottomKFilter :=
  vals.foldl (fun f v => (f.filter_append (mkRewardSample v)).1)
    (TopBottomKFilter.new 2 1 "reward")

/-- Executable check behind claim C6 for one arrival order. -/
def checkC6 (l : List ℚ) : Bool :=
  ((runTopBottom l).bottom_heap.map (fun e => e.2.2) == [mkRewardSample 1]) &&
  ((runTopBottom l).top_heap.map (fun e => e.2.2) == [mkRewardSample 7, mkRewardSample 9])

/-- Claim C6: for every arrival order of the values `[5, 1, 9, 3, 7]` as
reward samples into a `top_k=2, bottom_k=1` filter, the flushed result holds
exactly the bottom-set sample of value `1` and the top-set samples of values
`9` and `7`. -/
theorem claim6_top_bottom_filter (l : List ℚ) (h : l.Perm [5, 1, 9, 3, 7]) :
    (runTopBottom l).bottom_heap.map (fun e => e.2.2) = [mkRewardSample 1] ∧
    ((runTopBottom l).top_heap.map (fun e => e.2.2)).Perm
      [mkRewardSample 9, mkRewardSample 7] ∧
    ((runTopBottom l).filter_flush []).Perm
      [mkRewardSample 1, mkRewardSample 9, mkRewardSample 7] := by
  have hmem : l ∈ List.permutations' [(5 : ℚ), 1, 9, 3, 7] :=
    List.mem_permutations'.mpr h
  have hall : (List.permutations' [(5 : ℚ), 1, 9, 3, 7]).all checkC6 = true := by decide
  have hc := List.all_eq_true.mp hall l hmem
  rw [checkC6, Bool.and_eq_true, beq_iff_eq, beq_iff_eq] at hc
  refine ⟨hc.1, ?_, ?_⟩
  · rw [hc.2]; exact List.Perm.swap _ _ _
  · show ((runTopBottom l).bottom_heap.map _ ++ (runTopBottom l).top_heap.map _).Perm _
    rw [hc.1, hc.2]
    exact List.Perm.cons _ (List.Perm.swap _ _ _)

theorem claim6_witness :
    (runTopBottom [5, 1, 9, 3, 7]).bottom_heap.map (fun e => e.2.2) = [mkRewardSample 1] ∧
    ((runTopBottom [5, 1, 9, 3, 7]).top_heap.map (fun e => e.2.2)).Perm
      [mkRewardSample 9, mkRewardSample 7] :=
  ⟨(claim6_top_bottom_filter [5, 1, 9, 3, 7] (List.Perm.refl _)).1,
   (claim6_top_bottom_filter [5, 1, 9, 3, 7] (List.Perm.refl _)).2.1⟩

----------------------------------------------------------------
-- Claim C5 (push 1.0, push 3.0, flush(10) scenario)
----------------------------------------------------------------

lemma flatMap_single {α β : Type _} (l : List α) (g : α → β) :
    (l.flatMap fun x => [g x]) = l.map g := by
  induction l with
  | nil => rfl
  | cons x l ih => simp [ih]

/-- Claim C5: on an initialized collector with no accumulators yet, pushing
MEAN metric "loss" with values 1.0 then 3.0 and then `flush(10, True)`
returns the state map `{"loss": {reduction_type: mean, sum: 4.0, count: 2}}`,
logs the locally reduced value 2.0 at step 10 to each accumulate-then-flush
backend via `log_batch`, and leaves the step counter at 11. -/
theorem claim5_push_flush_scenario (c : Collector)
    (h1 : c._is_initialized = true) (h2 : c.accumulators = []) :
    ∃ (c1 c2 c3 : Collector) (ev1 ev2 : List Event),
      c.push (PushInput.metric ⟨"loss", MValue.num 1, Reduce.MEAN, none⟩) = .ok (c1, ev1) ∧
      c1.push (PushInput.metric ⟨"loss", MValue.num 3, Reduce.MEAN, none⟩) = .ok (c2, ev2) ∧
      c2.flush 10 true =
        .ok (c3,
             c.per_rank_reduce_backends.map (fun b =>
               Event.logBatch b [⟨"loss", MValue.num 2, Reduce.MEAN, none⟩] 10),
             [("loss", MetricState.mean 4 2)]) ∧
      c3.global_step = 11 := by
  refine ⟨{c with accumulators := [("loss", .mean ⟨1, 1⟩)]},
          {c with accumulators := [("loss", .mean ⟨4, 2⟩)]},
          {c with accumulators := [("loss", .mean ⟨0, 0⟩)], global_step := 11},
          c.per_rank_no_reduce_backends.map (fun b =>
            Event.logStream b ⟨"loss", MValue.num 1, Reduce.MEAN, none⟩ c.global_step),
          c.per_rank_no_reduce_backends.map (fun b =>
            Event.logStream b ⟨"loss", MValue.num 3, Reduce.MEAN, none⟩ c.global_step),
          ?_, ?_, ?_, rfl⟩
  · norm_num [Collector.push, h1, h2, Reduce.accumulator_class, MetricAccumulator.append,
      MeanAccumulator.append, MeanAccumulator.init, bind, Except.bind]
    intro a ha h
    exact absurd h (by decide)
  · norm_num [Collector.push, h1, List.lookup, Collector.setAcc,
      MetricAccumulator.append, MeanAccumulator.append, bind, Except.bind]
    intro a ha h
    exact absurd h (by decide)
  · norm_num [Collector.flush, h1, MetricAccumulator.get_state, MeanAccumulator.get_state,
      MetricAccumulator.reset, MeanAccumulator.reset, MeanAccumulator.init,
      reduce_metrics_states, reduceKeys, reduceKey, List.lookup,
      MetricState.reduction_type, Reduce.merge_states,
      MeanAccumulator.get_reduced_value_from_states, MeanAccumulator.stateFields,
      bind, Except.bind, pure, Except.pure, List.filterMap_cons, List.filterMap_nil,
      List.all_cons, List.all_nil]
    by_cases hb : c.per_rank_reduce_backends = []
    · simp [hb]
    · rw [if_neg hb]
      simp only [Except.ok.injEq, Prod.mk.injEq]
      refine ⟨trivial, ?_, trivial⟩
      have hfun :
          ∀ b : String,
            ((if Reduce.MEAN = Reduce.SAMPLE then [] else
              [Event.logBatch b
                (List.filter (fun m => !decide (m.reduction = Reduce.SAMPLE))
                  [⟨"loss", MValue.num 2, Reduce.MEAN, none⟩]) 10]) ++
             (if (match (if Reduce.MEAN = Reduce.SAMPLE then
                     some ("loss", MValue.num 2) else none) with
                   | none => ([] : List (String × MValue))
                   | some b => [b]) = [] then [] else
              [Event.logSamples b
                (match (if Reduce.MEAN = Reduce.SAMPLE then
                    some ("loss", MValue.num 2) else none) with
                  | none => ([] : List (String × MValue))
                  | some b => [b]) 10])) =
            [Event.logBatch b [⟨"loss", MValue.num 2, Reduce.MEAN, none⟩] 10] := by
        intro b
        simp [List.filter]
      calc (c.per_rank_reduce_backends.flatMap fun b =>
              (if Reduce.MEAN = Reduce.SAMPLE then [] else
                [Event.logBatch b
                  (List.filter (fun m => !decide (m.reduction = Reduce.SAMPLE))
                    [⟨"loss", MValue.num 2, Reduce.MEAN, none⟩]) 10]) ++
              (if (match (if Reduce.MEAN = Reduce.SAMPLE then
                      some ("loss", MValue.num 2) else none) with
                    | none => ([] : List (String × MValue))
                    | some b => [b]) = [] then [] else
               [Event.logSamples b
                 (match (if Reduce.MEAN = Reduce.SAMPLE then
                     some ("loss", MValue.num 2) else none) with
                   | none => ([] : List (String × MValue))
                   | some b => [b]) 10]))
          = c.per_rank_reduce_backends.flatMap fun b =>
              [Event.logBatch b [⟨"loss", MValue.num 2, Reduce.MEAN, none⟩] 10] := by
            rw [funext hfun]
        _ = _ := flatMap_single _ _

theorem claim5_witness :
    ∃ (c1 c2 c3 : Collector) (ev1 ev2 : List Event),
      (Collector.new.init_backends [("console", LoggingMode.PER_RANK_REDUCE)] 0).push
          (PushInput.metric ⟨"loss", MValue.num 1, Reduce.MEAN, none⟩) = .ok (c1, ev1) ∧
      c1.push (PushInput.metric ⟨"loss", MValue.num 3, Reduce.MEAN, none⟩) = .ok (c2, ev2) ∧
      c2.flush 10 true =
        .ok (c3,
             (Collector.new.init_backends
                 [("console", LoggingMode.PER_RANK_REDUCE)] 0).per_rank_reduce_backends.map
               (fun b => Event.logBatch b [⟨"loss", MValue.num 2, Reduce.MEAN, none⟩] 10),
             [("loss", MetricState.mean 4 2)]) ∧
      c3.global_step = 11 :=
  claim5_push_flush_scenario
    (Collector.new.init_backends [("console", LoggingMode.PER_RANK_REDUCE)] 0) rfl rfl

theorem claim1_witness :
    (Collector.new.init_backends [("console", LoggingMode.PER_RANK_REDUCE)] 0).flush 5 true =
      .ok (Collector.new.init_backends [("console", LoggingMode.PER_RANK_REDUCE)] 0, [], []) :=
  claim1_flush_no_accumulators_noop
    (Collector.new.init_backends [("console", LoggingMode.PER_RANK_REDUCE)] 0) 5 true rfl rfl

end Forge
